import Mathlib

/-!
Verification of the connection/session/service lifecycle core, the CharacterSet
JSON marshaller and the iAP2 device application-handle allocator of sdl_core.

Shallow embedding: C++ structures become Lean structures, the mutating methods
become state-passing functions, machine integers become Nat/Int, fallible
methods return Except/Option.
-/

namespace SdlCore

/-! ## JSON values, as far as the marshallers observe them

The marshaller only distinguishes string values from every other kind of
Json::Value, so a small inductive with representative non-string constructors
suffices. -/

inductive JsonValue where
  | jstring (s : String)
  | jnull
  | jbool (b : Bool)
  | jint (n : Int)
  | jarray (len : Nat)
  | jobject (len : Nat)
  deriving DecidableEq, Repr

def JsonValue.isString : JsonValue → Bool
  | .jstring _ => true
  | _ => false

namespace V1

/-- The CharacterSet enum of the V1 RPC objects: the four table entries of
CharacterSetMarshaller::mHashTable plus INVALID_ENUM. -/
inductive CharacterSetInternal where
  | TYPE2SET
  | TYPE5SET
  | CID1SET
  | CID2SET
  | INVALID_ENUM
  deriving DecidableEq, Repr

/-- CharacterSetMarshaller::mHashTable, verbatim from CharacterSetMarshaller.cpp:
four (name, idx) entries. -/
def mHashTable : List (String × Nat) :=
  [("TYPE2SET", 0), ("TYPE5SET", 1), ("CID1SET", 2), ("CID2SET", 3)]

/-- The static_cast from a table index back to the enum (enum values follow
table order, INVALID_ENUM otherwise). -/
def internalOfIdx : Nat → CharacterSetInternal
  | 0 => .TYPE2SET
  | 1 => .TYPE5SET
  | 2 => .CID1SET
  | 3 => .CID2SET
  | _ => .INVALID_ENUM

/-- The numeric value of each proper enum member, none for INVALID_ENUM. -/
def idxOfInternal : CharacterSetInternal → Option Nat
  | .TYPE2SET => some 0
  | .TYPE5SET => some 1
  | .CID1SET => some 2
  | .CID2SET => some 3
  | .INVALID_ENUM => none

/-- Modelled from the spec: CharacterSet_intHash::getPointer lives in the
generated CharacterSetMarshaller.inc, which is not under src/; a perfect hash
over mHashTable is exact-name lookup in that table.  getIndex then casts the
found idx to the enum, INVALID_ENUM when no entry matches
(CharacterSetMarshaller.cpp lines 51-57). -/
def getIndex (s : String) : CharacterSetInternal :=
  match mHashTable.find? (fun p => decide (p.1 = s)) with
  | some p => internalOfIdx p.2
  | none => .INVALID_ENUM

/-- Modelled from the spec: getName lives in the generated marshaller header,
which is not under src/; it returns the mHashTable name whose idx equals the
enum value, null for an out-of-range value. -/
def getName (e : CharacterSetInternal) : Option String :=
  match idxOfInternal e with
  | none => none
  | some i => (mHashTable.find? (fun p => decide (p.2 = i))).map Prod.fst

/-- CharacterSetMarshaller::fromJSON (CharacterSetMarshaller.cpp lines 60-68):
the out-parameter e is first set to INVALID_ENUM; a non-string input returns
false; otherwise e := getIndex(s) and the result is whether e is valid.
The pair returned is (result, e). -/
def fromJSON (s : JsonValue) : Bool × CharacterSetInternal :=
  match s with
  | .jstring str =>
    let e := getIndex str
    (decide (e ≠ .INVALID_ENUM), e)
  | _ => (false, .INVALID_ENUM)

/-- CharacterSetMarshaller::toJSON (CharacterSetMarshaller.cpp lines 71-77):
null for INVALID_ENUM, else the name string, null if getName fails. -/
def toJSON (e : CharacterSetInternal) : JsonValue :=
  if e = .INVALID_ENUM then .jnull
  else
    match getName e with
    | some s => .jstring s
    | none => .jnull

end V1

namespace ConnectionHandler

/-! ## Connection / Session / Service model

connection.h declares the Connection interface (session map of type
std::map<uint8_t, ServiceList>, ServiceList = std::vector<Service>, Service
holding a ServiceType and an SSLContext pointer).  The implementation
connection.cc is not under src/, so each operation is modelled from the spec,
as its doc comment records.  Security contexts are opaque references, modelled
as Nat identifiers; session identifiers are Nat, valid below 256 (uint8_t). -/

/-- Service types multiplexed over a connection (protocol_handler/service_type.h
is not under src/).  kRpc is the primary control type: spec section 3 —
"Exactly one ServiceType value is the primary/control type for a session",
and the control channel is the RPC channel ("control/RPC"). -/
inductive ServiceType where
  | kRpc
  | kAudio
  | kMobileNav
  | kBulk
  deriving DecidableEq, Repr

/-- struct Service of connection.h lines 74-88: a service type together with an
optional security context reference (NULL pointer becomes none). -/
structure Service where
  service_type : ServiceType
  ssl_context : Option Nat
  deriving DecidableEq, Repr

/-- SessionMap of connection.h line 108 (std::map<uint8_t, ServiceList>),
as an association list from session id to service list. -/
abbrev SessionMap := List (Nat × List Service)

/-- Error taxonomy of spec section 7. -/
inductive Err where
  | NotFound
  | AlreadyExists
  | ResourceExhausted
  | InvalidState
  deriving DecidableEq, Repr

/-- Map lookup, first entry whose key matches. -/
def lookupSession : SessionMap → Nat → Option (List Service)
  | [], _ => none
  | p :: rest, sid => if p.1 = sid then some p.2 else lookupSession rest sid

/-- Replace the service list stored under an existing session id; keys are
untouched. -/
def updateSession (m : SessionMap) (sid : Nat) (svcs : List Service) : SessionMap :=
  m.map fun p => if p.1 = sid then (p.1, svcs) else p

/-- Drop a session entry. -/
def eraseSession (m : SessionMap) (sid : Nat) : SessionMap :=
  m.filter fun p => decide (p.1 ≠ sid)

/-- First identifier in [start, start+fuel) whose session entry is absent. -/
def findFreeFrom (m : SessionMap) : Nat → Nat → Option Nat
  | _, 0 => none
  | start, fuel + 1 =>
    if lookupSession m start = none then some start
    else findFreeFrom m (start + 1) fuel

/-! ### HeartBeatMonitor

heartbeat_monitor.h is not under src/; the state machine is modelled from spec
section 4.2.  Time is an abstract Nat instant supplied by the caller. -/

inductive HBStatus where
  | Disabled
  | Armed
  | Expired
  | Stopped
  deriving DecidableEq, Repr

structure HeartBeatMonitor where
  timeout : Nat
  last_activity : Nat
  status : HBStatus
  deriving DecidableEq, Repr

/-- Modelled from the spec: section 4.2 — construction arms the monitor unless
the configured timeout is zero/disabled, in which case it never arms. -/
def HeartBeatMonitor.init (timeout now : Nat) : HeartBeatMonitor :=
  { timeout := timeout, last_activity := now,
    status := if timeout = 0 then .Disabled else .Armed }

/-- Modelled from the spec: KeepAlive records the current time as the
last-seen-activity instant; the status is unchanged. -/
def HeartBeatMonitor.recordActivity (m : HeartBeatMonitor) (now : Nat) : HeartBeatMonitor :=
  { m with last_activity := now }

/-- Modelled from the spec: Stop moves the monitor to Stopped from any state. -/
def HeartBeatMonitor.stopMonitor (m : HeartBeatMonitor) : HeartBeatMonitor :=
  { m with status := .Stopped }

/-- Modelled from the spec: the background timer fires at instant now; if the
monitor is Armed and the elapsed time since last_activity meets or exceeds the
timeout, it transitions to Expired and invokes the close callback (the returned
Bool) exactly this once; otherwise nothing happens. -/
def HeartBeatMonitor.timerFire (m : HeartBeatMonitor) (now : Nat) : HeartBeatMonitor × Bool :=
  if m.status = .Armed ∧ m.timeout ≤ now - m.last_activity then
    ({ m with status := .Expired }, true)
  else (m, false)

/-- Events driving one HeartBeatMonitor: keep-alives, timer callbacks, stop. -/
inductive HBEvent where
  | keepAlive (now : Nat)
  | timerFire (now : Nat)
  | stop
  deriving DecidableEq, Repr

/-- One step of the monitor; the Bool reports whether the expiry callback was
invoked during this step. -/
def HeartBeatMonitor.step (m : HeartBeatMonitor) : HBEvent → HeartBeatMonitor × Bool
  | .keepAlive now => (m.recordActivity now, false)
  | .timerFire now => m.timerFire now
  | .stop => (m.stopMonitor, false)

/-- State after a sequence of events. -/
def HeartBeatMonitor.runEvents (m : HeartBeatMonitor) : List HBEvent → HeartBeatMonitor
  | [] => m
  | e :: es => ((m.step e).1).runEvents es

/-- Number of expiry-callback invocations along a sequence of events. -/
def HeartBeatMonitor.fireCount (m : HeartBeatMonitor) : List HBEvent → Nat
  | [] => 0
  | e :: es =>
    (if (m.step e).2 then 1 else 0) + ((m.step e).1).fireCount es

/-! ### Connection -/

/-- The Connection of connection.h lines 124-244: handle, device handle,
session map, heartbeat monitor, plus the closed flag of its terminal state. -/
structure Connection where
  connection_handle : Int
  connection_device_handle : Int
  session_map : SessionMap
  heartbeat_monitor : HeartBeatMonitor
  closed : Bool
  deriving DecidableEq, Repr

/-- Modelled from the spec: the constructor (connection.h lines 129-132) stores
the handles and arms the heartbeat monitor with the configured timeout. -/
def Connection.init (handle device : Int) (heartbeat_timeout now : Nat) : Connection :=
  { connection_handle := handle, connection_device_handle := device,
    session_map := [], heartbeat_monitor := .init heartbeat_timeout now,
    closed := false }

/-- Modelled from the spec: AddNewSession (connection.h lines 151-155, spec
section 4.1) — allocates the lowest unused SessionId (256 identifiers, bounded
by the uint8_t width), inserts a session containing exactly the primary control
Service with no security binding; ResourceExhausted when no id is free. -/
def Connection.AddNewSession (c : Connection) : Except Err Nat × Connection :=
  match findFreeFrom c.session_map 0 256 with
  | none => (.error .ResourceExhausted, c)
  | some sid =>
    (.ok sid,
     { c with session_map :=
        c.session_map ++ [(sid, [⟨ServiceType.kRpc, none⟩])] })

/-- Modelled from the spec: RemoveSession (connection.h lines 157-162, spec
section 4.1) — removes the whole session entry with all its services;
NotFound when the id is absent. -/
def Connection.RemoveSession (c : Connection) (session : Nat) : Except Err Unit × Connection :=
  match lookupSession c.session_map session with
  | none => (.error .NotFound, c)
  | some _ => (.ok (), { c with session_map := eraseSession c.session_map session })

/-- Whether a service of the given type is present in the list. -/
def hasServiceType (svcs : List Service) (t : ServiceType) : Bool :=
  svcs.any fun s => decide (s.service_type = t)

/-- Modelled from the spec: AddNewService (connection.h lines 164-169, spec
section 4.1) — NotFound when the session is absent, AlreadyExists when the type
is already present, otherwise appends one Service with no security binding. -/
def Connection.AddNewService (c : Connection) (session : Nat) (service : ServiceType) :
    Except Err Unit × Connection :=
  match lookupSession c.session_map session with
  | none => (.error .NotFound, c)
  | some svcs =>
    if hasServiceType svcs service then (.error .AlreadyExists, c)
    else
      (.ok (),
       { c with session_map :=
          updateSession c.session_map session (svcs ++ [⟨service, none⟩]) })

/-- Modelled from the spec: RemoveService (connection.h lines 171-177, spec
section 4.1) — NotFound when session or service is absent; removal of the
primary control type is equivalent to RemoveSession; otherwise only the one
service is removed. -/
def Connection.RemoveService (c : Connection) (session : Nat)
    (service_type : ServiceType) : Except Err Unit × Connection :=
  match lookupSession c.session_map session with
  | none => (.error .NotFound, c)
  | some svcs =>
    if service_type = .kRpc then
      (.ok (), { c with session_map := eraseSession c.session_map session })
    else if hasServiceType svcs service_type then
      let svcs2 := svcs.filter fun s => decide (s.service_type ≠ service_type)
      (.ok (), { c with session_map := updateSession c.session_map session svcs2 })
    else (.error .NotFound, c)

/-- Modelled from the spec: SetSSLContext (connection.h lines 185-188, spec
SetSecurityContext) — NotFound without side effect when the (session,
service_type) pair is absent; otherwise installs the new context and hands the
previously installed binding back to the caller. -/
def Connection.SetSSLContext (c : Connection) (session : Nat)
    (service_type : ServiceType) (context : Nat) :
    Except Err (Option Nat) × Connection :=
  match lookupSession c.session_map session with
  | none => (.error .NotFound, c)
  | some svcs =>
    match svcs.find? (fun s => decide (s.service_type = service_type)) with
    | none => (.error .NotFound, c)
    | some svc =>
      let svcs2 := svcs.map fun s =>
        if s.service_type = service_type
        then { s with ssl_context := some context } else s
      (.ok svc.ssl_context,
       { c with session_map := updateSession c.session_map session svcs2 })

/-- Modelled from the spec: GetSSLContext (connection.h lines 196-198, spec
GetSecurityContext) — read-only lookup (the method is const), none when the
pair is absent or the service carries no binding. -/
def Connection.GetSSLContext (c : Connection) (session : Nat)
    (service_type : ServiceType) : Option Nat :=
  match lookupSession c.session_map session with
  | none => none
  | some svcs =>
    match svcs.find? (fun s => decide (s.service_type = service_type)) with
    | none => none
    | some svc => svc.ssl_context

/-- Modelled from the spec: Close (connection.h lines 205-208, spec
section 4.1) — tears down every session, stops the heartbeat monitor and
enters the terminal closed state. -/
def Connection.Close (c : Connection) : Connection :=
  { c with session_map := [],
           heartbeat_monitor := c.heartbeat_monitor.stopMonitor,
           closed := true }

/-- Modelled from the spec: KeepAlive (connection.h lines 210-213, spec
section 4.1) — records the current time in the heartbeat monitor without
touching the session table. -/
def Connection.KeepAlive (c : Connection) (now : Nat) : Connection :=
  { c with heartbeat_monitor := c.heartbeat_monitor.recordActivity now }

/-! ### Reachable connection states -/

/-- The session/service lifecycle operations, for quantifying over call
sequences. -/
inductive COp where
  | addSession
  | removeSession (session : Nat)
  | addService (session : Nat) (service : ServiceType)
  | removeService (session : Nat) (service : ServiceType)
  | setContext (session : Nat) (service : ServiceType) (context : Nat)
  | keepAlive (now : Nat)
  deriving DecidableEq, Repr

/-- Apply one lifecycle operation, keeping only the resulting state. -/
def Connection.applyOp (c : Connection) : COp → Connection
  | .addSession => c.AddNewSession.2
  | .removeSession s => (c.RemoveSession s).2
  | .addService s t => (c.AddNewService s t).2
  | .removeService s t => (c.RemoveService s t).2
  | .setContext s t ctx => (c.SetSSLContext s t ctx).2
  | .keepAlive now => c.KeepAlive now

/-- State after a sequence of lifecycle operations. -/
def Connection.runOps (c : Connection) : List COp → Connection
  | [] => c
  | op :: ops => (c.applyOp op).runOps ops

/-- Well-formedness of one session's service list: nonempty, the primary
control service first, and no duplicated service type. -/
def SessionWF (svcs : List Service) : Prop :=
  svcs ≠ [] ∧
  (∃ s, svcs.head? = some s ∧ s.service_type = .kRpc) ∧
  (svcs.map Service.service_type).Nodup

/-- Connection invariant: session keys unduplicated and every session
well-formed. -/
def ConnInv (c : Connection) : Prop :=
  (c.session_map.map Prod.fst).Nodup ∧ ∀ p ∈ c.session_map, SessionWF p.2

end ConnectionHandler

namespace TransportAdapter

/-! ## IAP2Device application-handle allocation

iap2_device.cc lines 47-54 initialise last_app_id_ to 0; OnConnect
(lines 138-146) assigns app_id = ++last_app_id_ and inserts the record;
OnDisconnect (lines 148-176) erases the record when present and never touches
last_app_id_.  An AppRecord is a (protocol_name, handler) pair; the iap2ea
handler pointer is opaque, modelled as Nat.  The connection threads that
OnConnect/OnDisconnect also manipulate carry no app-handle state and are not
modelled. -/

structure IAP2Device where
  last_app_id : Nat
  apps : List (Nat × String × Nat)
  deriving DecidableEq, Repr

/-- Constructor state (iap2_device.cc lines 47-54): no apps, last_app_id_ 0. -/
def IAP2Device.init : IAP2Device :=
  { last_app_id := 0, apps := [] }

/-- OnConnect (iap2_device.cc lines 138-146): app_id = ++last_app_id_, the
record is inserted under that key; the assigned handle is returned alongside
the new state. -/
def IAP2Device.onConnect (d : IAP2Device) (protocol_name : String) (handler : Nat) :
    IAP2Device × Nat :=
  let app_id := d.last_app_id + 1
  ({ last_app_id := app_id, apps := d.apps ++ [(app_id, protocol_name, handler)] },
   app_id)

/-- OnDisconnect (iap2_device.cc lines 148-176): the record under app_id is
erased when present; last_app_id_ is untouched. -/
def IAP2Device.onDisconnect (d : IAP2Device) (app_id : Nat) : IAP2Device :=
  { d with apps := d.apps.filter fun p => decide (p.1 ≠ app_id) }

/-- Connect/disconnect events delivered to one device. -/
inductive DevEvent where
  | connect (protocol_name : String) (handler : Nat)
  | disconnect (app_id : Nat)
  deriving DecidableEq, Repr

/-- Run a sequence of events, logging the application handle assigned by each
connect in order. -/
def IAP2Device.runLog (d : IAP2Device) : List DevEvent → IAP2Device × List Nat
  | [] => (d, [])
  | .connect p h :: es =>
    let next := (d.onConnect p h).1.runLog es
    (next.1, (d.onConnect p h).2 :: next.2)
  | .disconnect a :: es => (d.onDisconnect a).runLog es

end TransportAdapter

end SdlCore

namespace SdlCore

/-- Claim C9: for every valid CharacterSet value e (not INVALID_ENUM),
fromJSON (toJSON e) succeeds and recovers e; and for every JSON value that is
not a string, fromJSON returns false with the output set to INVALID_ENUM. -/
theorem characterSet_fromJSON_toJSON_roundtrip :
    (∀ e : V1.CharacterSetInternal, e ≠ .INVALID_ENUM →
      V1.fromJSON (V1.toJSON e) = (true, e)) ∧
    (∀ j : JsonValue, j.isString = false →
      V1.fromJSON j = (false, .INVALID_ENUM)) := by
  constructor
  · intro e he
    cases e
    · decide
    · decide
    · decide
    · decide
    · exact absurd rfl he
  · intro j hj
    cases j <;> first
      | rfl
      | simp [JsonValue.isString] at hj

/-- Witness for C9 at concrete inputs: TYPE2SET round-trips and jnull is
rejected with INVALID_ENUM. -/
theorem characterSet_fromJSON_toJSON_roundtrip_witness :
    V1.fromJSON (V1.toJSON .TYPE2SET) = (true, .TYPE2SET) ∧
    V1.fromJSON .jnull = (false, .INVALID_ENUM) :=
  ⟨characterSet_fromJSON_toJSON_roundtrip.1 .TYPE2SET (by decide),
   characterSet_fromJSON_toJSON_roundtrip.2 .jnull (by decide)⟩

namespace ConnectionHandler

/-! ### HeartBeatMonitor lemmas -/

theorem HeartBeatMonitor.step_status_armed {m : HeartBeatMonitor} {e : HBEvent}
    (h : ((m.step e).1).status = .Armed) : m.status = .Armed := by
  cases e with
  | keepAlive now => exact h
  | timerFire now =>
    simp only [step, timerFire] at h
    split at h <;> simp_all
  | stop => simp [step, stopMonitor] at h

theorem HeartBeatMonitor.step_fire {m : HeartBeatMonitor} {e : HBEvent}
    (h : (m.step e).2 = true) :
    m.status = .Armed ∧ ((m.step e).1).status = .Expired := by
  cases e with
  | keepAlive now => simp [step, recordActivity] at h
  | timerFire now =>
    simp only [step, timerFire] at h ⊢
    split at h
    · rename_i hc
      exact ⟨hc.1, by rw [if_pos hc]⟩
    · simp at h
  | stop => simp [step, stopMonitor] at h

theorem HeartBeatMonitor.fireCount_eq_zero {m : HeartBeatMonitor} (es : List HBEvent)
    (hm : m.status ≠ .Armed) : m.fireCount es = 0 := by
  induction es generalizing m with
  | nil => rfl
  | cons e es ih =>
    have hb : (m.step e).2 = false := by
      cases hb2 : (m.step e).2
      · rfl
      · exact absurd (step_fire hb2).1 hm
    have hs : ((m.step e).1).status ≠ .Armed := fun h => hm (step_status_armed h)
    simp [fireCount, hb, ih hs]

theorem HeartBeatMonitor.fireCount_le_one (es : List HBEvent) :
    ∀ m : HeartBeatMonitor, m.fireCount es ≤ 1 := by
  induction es with
  | nil => intro m; exact Nat.zero_le 1
  | cons e es ih =>
    intro m
    cases hb : (m.step e).2
    · simpa [fireCount, hb] using ih (m.step e).1
    · have h2 := step_fire hb
      have hz : ((m.step e).1).fireCount es = 0 :=
        fireCount_eq_zero es (by rw [h2.2]; simp)
      simp [fireCount, hb, hz]

theorem HeartBeatMonitor.runEvents_append (es1 es2 : List HBEvent) :
    ∀ m : HeartBeatMonitor,
      m.runEvents (es1 ++ es2) = (m.runEvents es1).runEvents es2 := by
  induction es1 with
  | nil => intro m; rfl
  | cons e es ih => intro m; simp [runEvents, ih]

/-- Claim C7: in the HeartbeatMonitor state machine, once Stop has been
processed no expiry callback ever fires afterwards; with a configured timeout
of zero the monitor starts Disabled and never fires; and the expiry callback is
invoked at most once along any event sequence. -/
theorem heartbeat_stop_zero_once :
    (∀ (m : HeartBeatMonitor) (pre post : List HBEvent),
      (m.runEvents (pre ++ [HBEvent.stop])).fireCount post = 0) ∧
    (∀ (now : Nat) (es : List HBEvent),
      (HeartBeatMonitor.init 0 now).fireCount es = 0) ∧
    (∀ (m : HeartBeatMonitor) (es : List HBEvent), m.fireCount es ≤ 1) := by
  refine ⟨?_, ?_, ?_⟩
  · intro m pre post
    apply HeartBeatMonitor.fireCount_eq_zero
    rw [HeartBeatMonitor.runEvents_append]
    simp [HeartBeatMonitor.runEvents, HeartBeatMonitor.step,
          HeartBeatMonitor.stopMonitor]
  · intro now es
    apply HeartBeatMonitor.fireCount_eq_zero
    simp [HeartBeatMonitor.init]
  · intro m es
    exact HeartBeatMonitor.fireCount_le_one es m

/-! ### Session map lemmas -/

theorem lookupSession_mem {m : SessionMap} {sid : Nat} {svcs : List Service}
    (h : lookupSession m sid = some svcs) : (sid, svcs) ∈ m := by
  induction m with
  | nil => simp [lookupSession] at h
  | cons p rest ih =>
    simp only [lookupSession] at h
    split at h
    · rename_i hp
      subst hp
      injection h with h2
      subst h2
      exact List.mem_cons_self p rest
    · exact List.mem_cons_of_mem p (ih h)

theorem lookupSession_isSome_mem_keys {m : SessionMap} {sid : Nat}
    (h : (lookupSession m sid).isSome = true) : sid ∈ m.map Prod.fst := by
  obtain ⟨svcs, hs⟩ := Option.isSome_iff_exists.mp h
  exact List.mem_map_of_mem Prod.fst (lookupSession_mem hs)

theorem lookup_isSome_of_mem_keys {m : SessionMap} {sid : Nat}
    (h : sid ∈ m.map Prod.fst) : (lookupSession m sid).isSome = true := by
  induction m with
  | nil => simp at h
  | cons p rest ih =>
    simp only [List.map_cons, List.mem_cons] at h
    by_cases hp : p.1 = sid
    · simp [lookupSession, hp]
    · rcases h with h | h
      · exact absurd h.symm hp
      · simp [lookupSession, hp, ih h]

theorem not_mem_keys_of_lookup_none {m : SessionMap} {sid : Nat}
    (h : lookupSession m sid = none) : sid ∉ m.map Prod.fst := by
  intro hm
  have h2 := lookup_isSome_of_mem_keys hm
  rw [h] at h2
  simp at h2

theorem lookupSession_eraseSession_self (m : SessionMap) (sid : Nat) :
    lookupSession (eraseSession m sid) sid = none := by
  induction m with
  | nil => rfl
  | cons p rest ih =>
    by_cases h : p.1 = sid
    · simpa [eraseSession, List.filter_cons, h] using ih
    · simpa [eraseSession, List.filter_cons, h, lookupSession] using ih

theorem eraseSession_sublist (m : SessionMap) (sid : Nat) :
    (eraseSession m sid).Sublist m := List.filter_sublist m

theorem mem_eraseSession {m : SessionMap} {sid : Nat} {q : Nat × List Service}
    (h : q ∈ eraseSession m sid) : q ∈ m := (List.mem_filter.mp h).1

theorem lookupSession_updateSession_self {m : SessionMap} {sid : Nat}
    (h : (lookupSession m sid).isSome = true) (svcs : List Service) :
    lookupSession (updateSession m sid svcs) sid = some svcs := by
  induction m with
  | nil => simp [lookupSession] at h
  | cons p rest ih =>
    by_cases hp : p.1 = sid
    · simp [updateSession, List.map_cons, lookupSession, hp]
    · have h2 : (lookupSession rest sid).isSome = true := by
        simpa [lookupSession, hp] using h
      simpa [updateSession, List.map_cons, lookupSession, hp] using ih h2

theorem updateSession_keys (m : SessionMap) (sid : Nat) (svcs : List Service) :
    (updateSession m sid svcs).map Prod.fst = m.map Prod.fst := by
  induction m with
  | nil => rfl
  | cons p rest ih =>
    simp only [updateSession, List.map_cons] at ih ⊢
    by_cases hp : p.1 = sid <;> simp [hp, ih]

theorem mem_updateSession {m : SessionMap} {sid : Nat} {svcs : List Service}
    {q : Nat × List Service} (h : q ∈ updateSession m sid svcs) :
    q ∈ m ∨ q.2 = svcs := by
  simp only [updateSession, List.mem_map] at h
  obtain ⟨p, hp, he⟩ := h
  by_cases h1 : p.1 = sid
  · right
    rw [if_pos h1] at he
    rw [← he]
  · left
    rw [if_neg h1] at he
    rwa [← he]

/-! ### Lowest-free-identifier lemmas -/

theorem findFreeFrom_none {m : SessionMap} :
    ∀ (fuel start : Nat), findFreeFrom m start fuel = none →
      ∀ k, start ≤ k → k < start + fuel → (lookupSession m k).isSome = true := by
  intro fuel
  induction fuel with
  | zero => intro start h k hk1 hk2; omega
  | succ n ih =>
    intro start h k hk1 hk2
    simp only [findFreeFrom] at h
    split at h
    · simp at h
    · rename_i hs
      by_cases hk : k = start
      · subst hk
        cases hl : lookupSession m k
        · exact absurd hl hs
        · simp [hl]
      · exact ih (start + 1) h k (by omega) (by omega)

theorem findFreeFrom_some {m : SessionMap} :
    ∀ (fuel start sid : Nat), findFreeFrom m start fuel = some sid →
      lookupSession m sid = none ∧ start ≤ sid ∧ sid < start + fuel ∧
      ∀ k, start ≤ k → k < sid → (lookupSession m k).isSome = true := by
  intro fuel
  induction fuel with
  | zero => intro start sid h; simp [findFreeFrom] at h
  | succ n ih =>
    intro start sid h
    simp only [findFreeFrom] at h
    split at h
    · rename_i hnone
      rw [Option.some.injEq] at h
      subst h
      exact ⟨hnone, le_refl _, by omega, fun k hk1 hk2 => by omega⟩
    · rename_i hs
      obtain ⟨h1, h2, h3, h4⟩ := ih (start + 1) sid h
      refine ⟨h1, by omega, by omega, ?_⟩
      intro k hk1 hk2
      by_cases hk : k = start
      · subst hk
        cases hl : lookupSession m k
        · exact absurd hl hs
        · simp [hl]
      · exact h4 k (by omega) hk2

theorem exists_free_of_length_lt {m : SessionMap} (h : m.length < 256) :
    ∃ k, k < 256 ∧ lookupSession m k = none := by
  by_contra hc
  push_neg at hc
  have hsub : Finset.range 256 ⊆ (m.map Prod.fst).toFinset := by
    intro k hk
    simp only [Finset.mem_range] at hk
    have hne := hc k hk
    have hsome : (lookupSession m k).isSome = true := by
      cases hl : lookupSession m k
      · exact absurd hl hne
      · simp
    exact List.mem_toFinset.mpr (lookupSession_isSome_mem_keys hsome)
  have h1 : (256 : ℕ) ≤ (m.map Prod.fst).toFinset.card := by
    simpa using Finset.card_le_card hsub
  have h2 : (m.map Prod.fst).toFinset.card ≤ (m.map Prod.fst).length :=
    List.toFinset_card_le _
  simp only [List.length_map] at h2
  omega

/-- Claim C3: for every connection whose session map holds fewer than 256
sessions, AddNewSession succeeds, returning the lowest SessionId not currently
present and appending a session holding exactly the primary control service;
when every one of the 256 identifiers is in use it fails with
ResourceExhausted and the state is unchanged. -/
theorem addNewSession_lowest_free :
    (∀ c : Connection, c.session_map.length < 256 →
      ∃ sid, sid < 256 ∧ lookupSession c.session_map sid = none ∧
        (∀ k, k < sid → (lookupSession c.session_map k).isSome = true) ∧
        c.AddNewSession =
          (.ok sid,
           { c with session_map :=
              c.session_map ++ [(sid, [⟨ServiceType.kRpc, none⟩])] })) ∧
    (∀ c : Connection,
      (∀ k, k < 256 → (lookupSession c.session_map k).isSome = true) →
      c.AddNewSession = (.error .ResourceExhausted, c)) := by
  constructor
  · intro c hlen
    obtain ⟨k0, hk0, hfree⟩ := exists_free_of_length_lt hlen
    cases hf : findFreeFrom c.session_map 0 256 with
    | none =>
      have hall := findFreeFrom_none 256 0 hf k0 (Nat.zero_le _) (by omega)
      rw [hfree] at hall
      simp at hall
    | some sid =>
      obtain ⟨h1, _, h3, h4⟩ := findFreeFrom_some 256 0 sid hf
      refine ⟨sid, by omega, h1, ?_, ?_⟩
      · intro k hk
        exact h4 k (Nat.zero_le _) hk
      · simp [Connection.AddNewSession, hf]
  · intro c hall
    cases hf : findFreeFrom c.session_map 0 256 with
    | none => simp [Connection.AddNewSession, hf]
    | some sid =>
      obtain ⟨h1, _, h3, _⟩ := findFreeFrom_some 256 0 sid hf
      have hk := hall sid (by omega)
      rw [h1] at hk
      simp at hk

/-- Witness for C3: a fresh connection has fewer than 256 sessions and
AddNewSession indeed allocates the lowest free identifier. -/
theorem addNewSession_lowest_free_witness :
    ∃ sid, sid < 256 ∧
      lookupSession (Connection.init 0 0 0 0).session_map sid = none ∧
      (∀ k, k < sid →
        (lookupSession (Connection.init 0 0 0 0).session_map k).isSome = true) ∧
      (Connection.init 0 0 0 0).AddNewSession =
        (.ok sid,
         { Connection.init 0 0 0 0 with session_map :=
            (Connection.init 0 0 0 0).session_map ++
              [(sid, [⟨ServiceType.kRpc, none⟩])] }) :=
  addNewSession_lowest_free.1 (Connection.init 0 0 0 0) (by decide)

/-- Claim C6: GetSSLContext is a total read-only lookup: none when the
session is absent, none when the service type is absent from the session,
the installed binding when the pair exists; and after removal of the primary
control service (which removes the whole session) it returns none rather than
an error. -/
theorem getSSLContext_total_readonly :
    (∀ (c : Connection) (session : Nat) (t : ServiceType),
      lookupSession c.session_map session = none →
      c.GetSSLContext session t = none) ∧
    (∀ (c : Connection) (session : Nat) (t : ServiceType) (svcs : List Service),
      lookupSession c.session_map session = some svcs →
      svcs.find? (fun s => decide (s.service_type = t)) = none →
      c.GetSSLContext session t = none) ∧
    (∀ (c : Connection) (session : Nat) (t : ServiceType)
       (svcs : List Service) (svc : Service),
      lookupSession c.session_map session = some svcs →
      svcs.find? (fun s => decide (s.service_type = t)) = some svc →
      c.GetSSLContext session t = svc.ssl_context) ∧
    (∀ (c : Connection) (session : Nat) (t : ServiceType),
      ((c.RemoveService session .kRpc).2).GetSSLContext session t = none) := by
  refine ⟨?_, ?_, ?_, ?_⟩
  · intro c session t h
    simp [Connection.GetSSLContext, h]
  · intro c session t svcs h1 h2
    simp [Connection.GetSSLContext, h1, h2]
  · intro c session t svcs svc h1 h2
    simp [Connection.GetSSLContext, h1, h2]
  · intro c session t
    cases hl : lookupSession c.session_map session with
    | none =>
      simp [Connection.RemoveService, hl, Connection.GetSSLContext]
    | some svcs =>
      simp [Connection.RemoveService, hl, Connection.GetSSLContext,
            lookupSession_eraseSession_self]

/-- Witness for C6: on a fresh connection the lookup of an absent session
returns none. -/
theorem getSSLContext_total_readonly_witness :
    (Connection.init 0 0 0 0).GetSSLContext 0 .kAudio = none :=
  getSSLContext_total_readonly.1 (Connection.init 0 0 0 0) 0 .kAudio rfl

/-! ### Security-context lemmas -/

theorem find?_setCtx {t : ServiceType} (ctx : Nat) :
    ∀ {svcs : List Service} {svc : Service},
      svcs.find? (fun s => decide (s.service_type = t)) = some svc →
      ((svcs.map fun s =>
          if s.service_type = t then { s with ssl_context := some ctx } else s).find?
        (fun s => decide (s.service_type = t))) =
        some { svc with ssl_context := some ctx } := by
  intro svcs
  induction svcs with
  | nil => intro svc h; simp at h
  | cons a rest ih =>
    intro svc h
    by_cases ha : a.service_type = t
    · rw [List.find?_cons_of_pos _ (by simp [ha])] at h
      injection h with h2
      subst h2
      simp only [List.map_cons, if_pos ha]
      rw [List.find?_cons_of_pos _ (by simp [ha])]
    · rw [List.find?_cons_of_neg _ (by simp [ha])] at h
      simp only [List.map_cons, if_neg ha]
      rw [List.find?_cons_of_neg _ (by simp [ha])]
      exact ih h

theorem setSSLContext_ok {c : Connection} {session : Nat} {t : ServiceType}
    {svcs : List Service} {svc : Service}
    (h1 : lookupSession c.session_map session = some svcs)
    (h2 : svcs.find? (fun s => decide (s.service_type = t)) = some svc)
    (ctx : Nat) :
    (c.SetSSLContext session t ctx).1 = .ok svc.ssl_context ∧
    lookupSession (c.SetSSLContext session t ctx).2.session_map session =
      some (svcs.map fun s =>
        if s.service_type = t then { s with ssl_context := some ctx } else s) ∧
    (c.SetSSLContext session t ctx).2.GetSSLContext session t = some ctx := by
  have e1 : c.SetSSLContext session t ctx =
      (.ok svc.ssl_context,
       { c with session_map := updateSession c.session_map session (svcs.map fun s =>
            if s.service_type = t then { s with ssl_context := some ctx } else s) }) := by
    simp [Connection.SetSSLContext, h1, h2]
  have hsome : (lookupSession c.session_map session).isSome = true := by simp [h1]
  have e2 := lookupSession_updateSession_self hsome
      (svcs.map fun s =>
        if s.service_type = t then { s with ssl_context := some ctx } else s)
  refine ⟨by rw [e1], by rw [e1]; exact e2, ?_⟩
  rw [e1]
  simp [Connection.GetSSLContext, e2, find?_setCtx ctx h2]

/-- Claim C2: SetSSLContext fails with NotFound and leaves the state unchanged
when the (session, service_type) pair is absent; when the pair exists it
succeeds and hands the previously installed binding back to the caller, so a
first call binding ctxA followed by a second call binding ctxB succeeds,
returns ctxA to the caller, and leaves the service bound to ctxB. -/
theorem setSSLContext_contract :
    (∀ (c : Connection) (session : Nat) (t : ServiceType) (ctx : Nat),
      lookupSession c.session_map session = none →
      c.SetSSLContext session t ctx = (.error .NotFound, c)) ∧
    (∀ (c : Connection) (session : Nat) (t : ServiceType) (ctx : Nat)
       (svcs : List Service),
      lookupSession c.session_map session = some svcs →
      svcs.find? (fun s => decide (s.service_type = t)) = none →
      c.SetSSLContext session t ctx = (.error .NotFound, c)) ∧
    (∀ (c : Connection) (session : Nat) (t : ServiceType) (ctxA ctxB : Nat)
       (svcs : List Service) (svc : Service),
      lookupSession c.session_map session = some svcs →
      svcs.find? (fun s => decide (s.service_type = t)) = some svc →
      (c.SetSSLContext session t ctxA).1 = .ok svc.ssl_context ∧
      ((c.SetSSLContext session t ctxA).2.SetSSLContext session t ctxB).1 =
        .ok (some ctxA) ∧
      (((c.SetSSLContext session t ctxA).2.SetSSLContext session t
          ctxB).2).GetSSLContext session t = some ctxB) := by
  refine ⟨?_, ?_, ?_⟩
  · intro c session t ctx h
    simp [Connection.SetSSLContext, h]
  · intro c session t ctx svcs h1 h2
    simp [Connection.SetSSLContext, h1, h2]
  · intro c session t ctxA ctxB svcs svc h1 h2
    obtain ⟨r1, l1, _⟩ := setSSLContext_ok h1 h2 ctxA
    have hA := find?_setCtx (t := t) ctxA h2
    obtain ⟨r2, _, g2⟩ := setSSLContext_ok l1 hA ctxB
    exact ⟨r1, r2, g2⟩

/-- Witness for C2: on a connection with one session holding only the control
service, binding ctxA = 5 then ctxB = 7 to the control service succeeds, the
second call returns ctxA, and the final binding is ctxB. -/
theorem setSSLContext_contract_witness :
    (((Connection.init 0 0 0 0).AddNewSession.2).SetSSLContext 0 .kRpc 5).1 =
      .ok none ∧
    ((((Connection.init 0 0 0 0).AddNewSession.2).SetSSLContext 0 .kRpc
        5).2.SetSSLContext 0 .kRpc 7).1 = .ok (some 5) ∧
    (((((Connection.init 0 0 0 0).AddNewSession.2).SetSSLContext 0 .kRpc
        5).2.SetSSLContext 0 .kRpc 7).2).GetSSLContext 0 .kRpc = some 7 :=
  setSSLContext_contract.2.2 ((Connection.init 0 0 0 0).AddNewSession.2)
    0 .kRpc 5 7 [⟨ServiceType.kRpc, none⟩] ⟨ServiceType.kRpc, none⟩
    (by decide) (by decide)

/-! ### Invariant preservation -/

theorem sessionWF_control : SessionWF [⟨ServiceType.kRpc, none⟩] :=
  ⟨by simp, ⟨⟨ServiceType.kRpc, none⟩, rfl, rfl⟩, by simp⟩

theorem sessionWF_append {svcs : List Service} (h : SessionWF svcs)
    {t : ServiceType} (hnot : hasServiceType svcs t = false) :
    SessionWF (svcs ++ [⟨t, none⟩]) := by
  obtain ⟨hne, ⟨s, hs1, hs2⟩, hnd⟩ := h
  have hno : ∀ x ∈ svcs, x.service_type ≠ t := by
    intro x hx
    simp only [hasServiceType, List.any_eq_false, decide_eq_true_eq] at hnot
    exact hnot x hx
  refine ⟨by simp, ⟨s, ?_, hs2⟩, ?_⟩
  · cases svcs with
    | nil => exact absurd rfl hne
    | cons a rest => simpa using hs1
  · rw [List.map_append, List.nodup_append]
    refine ⟨hnd, by simp, ?_⟩
    intro x hx hx2
    simp only [List.map_cons, List.map_nil, List.mem_singleton] at hx2
    subst hx2
    obtain ⟨s2, hs2m, hs2e⟩ := List.mem_map.mp hx
    exact hno s2 hs2m hs2e

theorem sessionWF_filter {svcs : List Service} (h : SessionWF svcs)
    {t : ServiceType} (ht : t ≠ .kRpc) :
    SessionWF (svcs.filter fun s => decide (s.service_type ≠ t)) := by
  obtain ⟨hne, ⟨s, hs1, hs2⟩, hnd⟩ := h
  cases svcs with
  | nil => exact absurd rfl hne
  | cons a rest =>
    have ha : a = s := by simpa using hs1
    subst ha
    have hat : a.service_type ≠ t := by
      rw [hs2]
      exact Ne.symm ht
    have hf : (a :: rest).filter (fun s => decide (s.service_type ≠ t)) =
        a :: rest.filter (fun s => decide (s.service_type ≠ t)) := by
      simp [List.filter_cons, hat]
    rw [hf]
    refine ⟨by simp, ⟨a, rfl, hs2⟩, ?_⟩
    have hsub : (a :: rest.filter fun s =>
        decide (s.service_type ≠ t)).Sublist (a :: rest) :=
      List.Sublist.cons₂ a (List.filter_sublist rest)
    exact List.Nodup.sublist (hsub.map Service.service_type) hnd

theorem sessionWF_setCtx {svcs : List Service} (h : SessionWF svcs)
    (t : ServiceType) (ctx : Nat) :
    SessionWF (svcs.map fun s =>
      if s.service_type = t then { s with ssl_context := some ctx } else s) := by
  obtain ⟨hne, ⟨s, hs1, hs2⟩, hnd⟩ := h
  have htype : ∀ x : Service,
      ((fun s => if s.service_type = t
        then { s with ssl_context := some ctx } else s) x).service_type =
        x.service_type := by
    intro x
    by_cases hx : x.service_type = t <;> simp [hx]
  cases svcs with
  | nil => exact absurd rfl hne
  | cons a rest =>
    have ha : a = s := by simpa using hs1
    subst ha
    refine ⟨by simp, ⟨_, rfl, ?_⟩, ?_⟩
    · rw [htype a]
      exact hs2
    · rw [List.map_map]
      have he : (Service.service_type ∘ fun s =>
          if s.service_type = t then { s with ssl_context := some ctx } else s) =
          Service.service_type := funext fun x => htype x
      rw [he]
      exact hnd

theorem connInv_init (handle device : Int) (tout now : Nat) :
    ConnInv (Connection.init handle device tout now) :=
  ⟨List.nodup_nil, fun p hp => absurd hp (List.not_mem_nil p)⟩

theorem connInv_applyOp {c : Connection} (h : ConnInv c) (op : COp) :
    ConnInv (c.applyOp op) := by
  obtain ⟨hkeys, hwf⟩ := h
  cases op with
  | addSession =>
    simp only [Connection.applyOp, Connection.AddNewSession]
    cases hf : findFreeFrom c.session_map 0 256 with
    | none => exact ⟨hkeys, hwf⟩
    | some sid =>
      obtain ⟨h1, _, _, _⟩ := findFreeFrom_some 256 0 sid hf
      refine ⟨?_, ?_⟩
      · rw [List.map_append]
        simp only [List.map_cons, List.map_nil]
        rw [List.nodup_append]
        refine ⟨hkeys, List.nodup_singleton _, ?_⟩
        intro x hx hx2
        simp only [List.mem_singleton] at hx2
        subst hx2
        exact not_mem_keys_of_lookup_none h1 hx
      · intro p hp
        rcases List.mem_append.mp hp with hp2 | hp2
        · exact hwf p hp2
        · simp only [List.mem_singleton] at hp2
          rw [hp2]
          exact sessionWF_control
  | removeSession s =>
    simp only [Connection.applyOp, Connection.RemoveSession]
    cases hl : lookupSession c.session_map s with
    | none => exact ⟨hkeys, hwf⟩
    | some svcs =>
      refine ⟨?_, ?_⟩
      · exact List.Nodup.sublist ((eraseSession_sublist _ _).map Prod.fst) hkeys
      · intro p hp
        exact hwf p (mem_eraseSession hp)
  | addService s t =>
    simp only [Connection.applyOp, Connection.AddNewService]
    cases hl : lookupSession c.session_map s with
    | none => exact ⟨hkeys, hwf⟩
    | some svcs =>
      by_cases hhas : hasServiceType svcs t = true
      · simp only [hhas, if_true]
        exact ⟨hkeys, hwf⟩
      · have hhas2 : hasServiceType svcs t = false :=
          Bool.eq_false_iff.mpr hhas
        simp only [hhas2, Bool.false_eq_true, if_false]
        refine ⟨?_, ?_⟩
        · rw [updateSession_keys]
          exact hkeys
        · intro p hp
          rcases mem_updateSession hp with hp2 | hp2
          · exact hwf p hp2
          · rw [hp2]
            exact sessionWF_append (hwf (s, svcs) (lookupSession_mem hl)) hhas2
  | removeService s t =>
    simp only [Connection.applyOp, Connection.RemoveService]
    cases hl : lookupSession c.session_map s with
    | none => exact ⟨hkeys, hwf⟩
    | some svcs =>
      by_cases hrpc : t = ServiceType.kRpc
      · simp only [hrpc, if_true]
        refine ⟨?_, ?_⟩
        · exact List.Nodup.sublist ((eraseSession_sublist _ _).map Prod.fst) hkeys
        · intro p hp
          exact hwf p (mem_eraseSession hp)
      · simp only [if_neg hrpc]
        by_cases hhas : hasServiceType svcs t = true
        · simp only [hhas, if_true]
          refine ⟨?_, ?_⟩
          · rw [updateSession_keys]
            exact hkeys
          · intro p hp
            rcases mem_updateSession hp with hp2 | hp2
            · exact hwf p hp2
            · rw [hp2]
              exact sessionWF_filter (hwf (s, svcs) (lookupSession_mem hl)) hrpc
        · have hhas2 : hasServiceType svcs t = false :=
            Bool.eq_false_iff.mpr hhas
          simp only [hhas2, Bool.false_eq_true, if_false]
          exact ⟨hkeys, hwf⟩
  | setContext s t ctx =>
    cases hl : lookupSession c.session_map s with
    | none =>
      have he : c.applyOp (.setContext s t ctx) = c := by
        simp [Connection.applyOp, Connection.SetSSLContext, hl]
      rw [he]
      exact ⟨hkeys, hwf⟩
    | some svcs =>
      cases hfind : svcs.find? (fun x => decide (x.service_type = t)) with
      | none =>
        have he : c.applyOp (.setContext s t ctx) = c := by
          simp [Connection.applyOp, Connection.SetSSLContext, hl, hfind]
        rw [he]
        exact ⟨hkeys, hwf⟩
      | some svc =>
        have he : c.applyOp (.setContext s t ctx) =
            { c with session_map := updateSession c.session_map s (svcs.map fun x =>
                if x.service_type = t then { x with ssl_context := some ctx } else x) } := by
          simp [Connection.applyOp, Connection.SetSSLContext, hl, hfind]
        rw [he]
        refine ⟨?_, ?_⟩
        · rw [updateSession_keys]
          exact hkeys
        · intro p hp
          rcases mem_updateSession hp with hp2 | hp2
          · exact hwf p hp2
          · rw [hp2]
            exact sessionWF_setCtx (hwf (s, svcs) (lookupSession_mem hl)) t ctx
  | keepAlive now => exact ⟨hkeys, hwf⟩

theorem connInv_runOps {c : Connection} (h : ConnInv c) (ops : List COp) :
    ConnInv (c.runOps ops) := by
  induction ops generalizing c with
  | nil => exact h
  | cons op ops ih => exact ih (connInv_applyOp h op)

/-- Claim C1: along every sequence of lifecycle operations from a fresh
connection, every session entry in the session map holds at least one service
and its first service is the primary control service (so a SessionId is
present iff that session has a service, and the control service anchors the
session); and RemoveService of the primary control type is literally the same
operation as RemoveSession — same result, same final state, removing the whole
session with all its non-control services. -/
theorem session_iff_service_control_first :
    (∀ (handle device : Int) (tout now : Nat) (ops : List COp),
      ∀ p ∈ ((Connection.init handle device tout now).runOps ops).session_map,
        p.2 ≠ [] ∧ ∃ s, p.2.head? = some s ∧ s.service_type = .kRpc) ∧
    (∀ (c : Connection) (session : Nat),
      c.RemoveService session .kRpc = c.RemoveSession session) := by
  constructor
  · intro handle device tout now ops p hp
    have hinv := connInv_runOps (connInv_init handle device tout now) ops
    obtain ⟨hne, hctl, _⟩ := hinv.2 p hp
    exact ⟨hne, hctl⟩
  · intro c session
    simp only [Connection.RemoveService, Connection.RemoveSession]
    cases hl : lookupSession c.session_map session with
    | none => rfl
    | some svcs => simp

/-- Witness for C1: after one AddNewSession on a fresh connection, session 0
holds exactly the control service, which is first. -/
theorem session_iff_service_control_first_witness :
    ((0, [(⟨ServiceType.kRpc, none⟩ : Service)]) : Nat × List Service).2 ≠ [] ∧
    (∃ s, ((0, [(⟨ServiceType.kRpc, none⟩ : Service)]) :
        Nat × List Service).2.head? = some s ∧ s.service_type = .kRpc) :=
  session_iff_service_control_first.1 0 0 0 0 [COp.addSession]
    (0, [⟨ServiceType.kRpc, none⟩]) (by decide)

/-- Claim C4: in every reachable connection state no session holds two services
of the same ServiceType; AddNewService fails with NotFound and changes nothing
when the session is absent, fails with AlreadyExists and inserts nothing when
the type is already present, and on success appends exactly one service of the
requested type with no security binding. -/
theorem addNewService_unique_types :
    (∀ (handle device : Int) (tout now : Nat) (ops : List COp),
      ∀ p ∈ ((Connection.init handle device tout now).runOps ops).session_map,
        (p.2.map Service.service_type).Nodup) ∧
    (∀ (c : Connection) (session : Nat) (t : ServiceType),
      lookupSession c.session_map session = none →
      c.AddNewService session t = (.error .NotFound, c)) ∧
    (∀ (c : Connection) (session : Nat) (t : ServiceType) (svcs : List Service),
      lookupSession c.session_map session = some svcs →
      hasServiceType svcs t = true →
      c.AddNewService session t = (.error .AlreadyExists, c)) ∧
    (∀ (c : Connection) (session : Nat) (t : ServiceType) (svcs : List Service),
      lookupSession c.session_map session = some svcs →
      hasServiceType svcs t = false →
      c.AddNewService session t =
        (.ok (),
         { c with session_map := updateSession c.session_map session
                                   (svcs ++ [⟨t, none⟩]) })) := by
  refine ⟨?_, ?_, ?_, ?_⟩
  · intro handle device tout now ops p hp
    have hinv := connInv_runOps (connInv_init handle device tout now) ops
    exact (hinv.2 p hp).2.2
  · intro c session t h
    simp [Connection.AddNewService, h]
  · intro c session t svcs h1 h2
    simp [Connection.AddNewService, h1, h2]
  · intro c session t svcs h1 h2
    simp [Connection.AddNewService, h1, h2]

/-- Witness for C4: adding Audio to the fresh session then adding Audio again
is rejected with AlreadyExists and changes nothing; adding to an absent session
is NotFound. -/
theorem addNewService_unique_types_witness :
    (Connection.init 0 0 0 0).AddNewService 0 .kAudio =
      (.error .NotFound, Connection.init 0 0 0 0) :=
  addNewService_unique_types.2.1 (Connection.init 0 0 0 0) 0 .kAudio rfl

/-- Claim C5: Close is idempotent — closing twice yields the same state as
closing once, and after Close the session map is empty, the heartbeat monitor
is Stopped and the connection is in the terminal closed state; the second call
surfaces no error (Close is a total function on states). -/
theorem close_idempotent (c : Connection) :
    c.Close.Close = c.Close ∧
    c.Close.session_map = [] ∧
    c.Close.heartbeat_monitor.status = .Stopped ∧
    c.Close.closed = true :=
  ⟨rfl, rfl, rfl, rfl⟩

/-- Claim C8: KeepAlive updates only the heartbeat monitor's last-seen-activity
instant: the session/service table and every other component of the connection
state are exactly the same after the call, and the monitor's status and timeout
are untouched. -/
theorem keepAlive_frame (c : Connection) (now : Nat) :
    (c.KeepAlive now).session_map = c.session_map ∧
    (c.KeepAlive now).connection_handle = c.connection_handle ∧
    (c.KeepAlive now).connection_device_handle = c.connection_device_handle ∧
    (c.KeepAlive now).closed = c.closed ∧
    (c.KeepAlive now).heartbeat_monitor.status = c.heartbeat_monitor.status ∧
    (c.KeepAlive now).heartbeat_monitor.timeout = c.heartbeat_monitor.timeout ∧
    (c.KeepAlive now).heartbeat_monitor.last_activity = now :=
  ⟨rfl, rfl, rfl, rfl, rfl, rfl, rfl⟩

end ConnectionHandler

namespace TransportAdapter

/-! ### IAP2Device handle-allocation lemmas -/

theorem runLog_mono (es : List DevEvent) :
    ∀ d : IAP2Device,
      d.last_app_id ≤ (d.runLog es).1.last_app_id ∧
      (∀ x ∈ (d.runLog es).2, d.last_app_id < x) ∧
      (d.runLog es).2.Chain' (· < ·) := by
  induction es with
  | nil =>
    intro d
    exact ⟨le_refl _, by simp [IAP2Device.runLog], by simp [IAP2Device.runLog]⟩
  | cons e es ih =>
    intro d
    cases e with
    | connect p h =>
      obtain ⟨ih1, ih2, ih3⟩ := ih (d.onConnect p h).1
      refine ⟨?_, ?_, ?_⟩
      · simp only [IAP2Device.runLog]
        exact le_trans (Nat.le_succ _) ih1
      · intro x hx
        simp only [IAP2Device.runLog, List.mem_cons] at hx
        rcases hx with hx | hx
        · rw [hx]
          exact Nat.lt_succ_self _
        · exact lt_trans (Nat.lt_succ_self _) (ih2 x hx)
      · simp only [IAP2Device.runLog]
        rw [List.chain'_cons']
        refine ⟨?_, ih3⟩
        intro y hy
        exact ih2 y (List.mem_of_mem_head? hy)
    | disconnect a =>
      obtain ⟨ih1, ih2, ih3⟩ := ih (d.onDisconnect a)
      exact ⟨ih1, ih2, ih3⟩

/-- Claim C10: OnConnect assigns the fresh handle one plus the last assigned
value and records it as the new last value; OnDisconnect never changes the
last assigned value; hence over any sequence of connect/disconnect events from
device construction the assigned handles are strictly increasing and all
distinct — a handle is never reused, even after its record was removed. -/
theorem iap2_fresh_handles :
    (∀ (d : IAP2Device) (protocol_name : String) (handler : Nat),
      (d.onConnect protocol_name handler).2 = d.last_app_id + 1 ∧
      (d.onConnect protocol_name handler).1.last_app_id = d.last_app_id + 1) ∧
    (∀ (d : IAP2Device) (app_id : Nat),
      (d.onDisconnect app_id).last_app_id = d.last_app_id) ∧
    (∀ es : List DevEvent, (IAP2Device.init.runLog es).2.Chain' (· < ·)) ∧
    (∀ es : List DevEvent, (IAP2Device.init.runLog es).2.Nodup) := by
  refine ⟨fun d p h => ⟨rfl, rfl⟩, fun d a => rfl, ?_, ?_⟩
  · intro es
    exact (runLog_mono es IAP2Device.init).2.2
  · intro es
    have hc := (runLog_mono es IAP2Device.init).2.2
    have hp : (IAP2Device.init.runLog es).2.Pairwise (· < ·) :=
      List.chain'_iff_pairwise.mp hc
    exact hp.imp Nat.ne_of_lt

end TransportAdapter

end SdlCore
